import Mathlib

set_option maxHeartbeats 1000000

/-!
Shallow embedding of the MTC formula prover
(`src/parsers/mtc_formula_prover.py`): the term algebra, the lexer, the
recursive-descent parser and the equivalence engine, together with proofs
settling the frozen claims about them.

Python recursion is modelled with an explicit fuel parameter: a result of
`none` (for `Option`) or the distinguished message `"FUEL"` (for `Except`)
means the fuel ran out; a value that is `none` for every fuel models a
Python computation that never returns (in CPython, a `RecursionError`).
-/

namespace Mtc

/-- The `form_type` strings `'REF' | 'VAL' | 'ARROW' | 'NEGATION'` carried by
the Python `ConnectionForm` class. -/
inductive FormType where
  | REF | VAL | ARROW | NEGATION
deriving DecidableEq, Repr

/-- The term algebra: one constructor per Python expression class of
`mtc_formula_prover.py` (`Symbol`, `Connection`, the four abits,
`AssociativeRoot`, `ConnectionForm`, `NegationExpression`,
`PowerLoopExpression`, `ComplexClosure`). -/
inductive Term where
  | Symbol (name : String)
  | Connection (reference : Term) (value : Term)
  | AbitStart
  | AbitEnd
  | AbitConnect
  | AbitDisconnect
  | AssociativeRoot
  | ConnectionForm (formType : FormType)
  | NegationExpression (expression : Term)
  | PowerLoopExpression (base : Term) (exponent : Int)
  | ComplexClosure (parts : List Term)
deriving Repr

mutual

/-- Python's `==` on expression objects: every class defines `__eq__` as
structural equality (same class, equal fields), so `==` on two expression
trees is structural equality of the trees. -/
def eqTerm : Term → Term → Bool
  | .Symbol a, .Symbol b => a == b
  | .Connection r1 v1, .Connection r2 v2 => eqTerm r1 r2 && eqTerm v1 v2
  | .AbitStart, .AbitStart => true
  | .AbitEnd, .AbitEnd => true
  | .AbitConnect, .AbitConnect => true
  | .AbitDisconnect, .AbitDisconnect => true
  | .AssociativeRoot, .AssociativeRoot => true
  | .ConnectionForm f1, .ConnectionForm f2 => f1 == f2
  | .NegationExpression e1, .NegationExpression e2 => eqTerm e1 e2
  | .PowerLoopExpression b1 n1, .PowerLoopExpression b2 n2 =>
      eqTerm b1 b2 && n1 == n2
  | .ComplexClosure p1, .ComplexClosure p2 => eqTermList p1 p2
  | _, _ => false

/-- Python's `==` on lists of expressions (elementwise, equal length), as
used on `ComplexClosure.parts` and slices such as `parts[1:] == parts[:-1]`. -/
def eqTermList : List Term → List Term → Bool
  | [], [] => true
  | a :: as, b :: bs => eqTerm a b && eqTermList as bs
  | _, _ => false

end

mutual

/-- Python `str()` on expression objects: the `__str__` methods of each
class (`Symbol` → its name, `Connection` → `"({ref}→{val})"`, the four
abits → their characters, `AssociativeRoot` → `"∞"`, `ConnectionForm` →
`"♂"`/`"♀"`/`"→"`/`"-"`, `NegationExpression` → `"-{inner}"`,
`PowerLoopExpression` → `"{base}^{exp}"`, `ComplexClosure` → the
concatenation of its parts' strings). -/
def strTerm : Term → String
  | .Symbol name => name
  | .Connection r v => "(" ++ strTerm r ++ "→" ++ strTerm v ++ ")"
  | .AbitStart => "("
  | .AbitEnd => ")"
  | .AbitConnect => "+"
  | .AbitDisconnect => "-"
  | .AssociativeRoot => "∞"
  | .ConnectionForm .REF => "♂"
  | .ConnectionForm .VAL => "♀"
  | .ConnectionForm .ARROW => "→"
  | .ConnectionForm .NEGATION => "-"
  | .NegationExpression e => "-" ++ strTerm e
  | .PowerLoopExpression b n => strTerm b ++ "^" ++ toString n
  | .ComplexClosure ps => strTermList ps

/-- `''.join(str(part) for part in self.parts)` for `ComplexClosure`. -/
def strTermList : List Term → String
  | [] => ""
  | p :: ps => strTerm p ++ strTermList ps

end

/-- `isinstance(t, AssociativeRoot)`. -/
def isRoot : Term → Bool
  | .AssociativeRoot => true
  | _ => false

/-- `isinstance(t, Connection)`. -/
def isConn : Term → Bool
  | .Connection _ _ => true
  | _ => false

/-- `isinstance(t, ConnectionForm) and t.form_type == ft`. -/
def isFormOf (ft : FormType) : Term → Bool
  | .ConnectionForm f => f == ft
  | _ => false

/-- `isinstance(parts[0], ConnectionForm) and parts[0].form_type == ft`
(callers guard with a length check first, as the Python code does). -/
def headIsForm (ft : FormType) (ps : List Term) : Bool :=
  match ps with
  | p :: _ => isFormOf ft p
  | [] => false

/-- `isinstance(parts[-1], ConnectionForm) and parts[-1].form_type == ft`. -/
def lastIsForm (ft : FormType) (ps : List Term) : Bool :=
  match ps.getLast? with
  | some p => isFormOf ft p
  | none => false

/-- One direction of `_check_merger_of_recursions` (lines 697-713): a
`ComplexClosure` whose parts are exactly the two-element run
`[ConnectionForm('REF'), ConnectionForm('VAL')]` against `AssociativeRoot`. -/
def mergerPat (x y : Term) : Bool :=
  match x, y with
  | .ComplexClosure [.ConnectionForm .REF, .ConnectionForm .VAL],
      .AssociativeRoot => true
  | _, _ => false

/-- `_check_merger_of_recursions`: the two mirrored `if` blocks. -/
def checkMergerOfRecursions (e1 e2 : Term) : Bool :=
  mergerPat e1 e2 || (mergerPat e2 e1 || false)

/-- First general pattern of `_check_negation_rules` (lines 719-728),
`-♂x == x♀`: `x` is a negated closure run starting with REF, `y` a run of
the same length ending with VAL, and `x`'s run without its head equals
`y`'s run without its last element. -/
def negPatRefGeneral (x y : Term) : Bool :=
  match x, y with
  | .NegationExpression inner, .ComplexClosure qs =>
    (match inner with
     | .ComplexClosure ps =>
       decide (2 ≤ ps.length) && headIsForm .REF ps &&
         ((ps.length == qs.length) && lastIsForm .VAL qs &&
           eqTermList ps.tail qs.dropLast)
     | _ => false)
  | _, _ => false

/-- Second general pattern of `_check_negation_rules` (lines 743-752),
`-x♀ == ♂x`: the negated run ends with VAL, the other run has the same
length and starts with REF, and the runs agree after dropping those. -/
def negPatValGeneral (x y : Term) : Bool :=
  match x, y with
  | .NegationExpression inner, .ComplexClosure qs =>
    (match inner with
     | .ComplexClosure ps =>
       decide (2 ≤ ps.length) && lastIsForm .VAL ps &&
         ((ps.length == qs.length) && headIsForm .REF qs &&
           eqTermList ps.dropLast qs.tail)
     | _ => false)
  | _, _ => false

/-- Specific pattern `-♂∞ == ∞♀` of `_check_negation_rules`
(lines 768-775). -/
def negPatRefRoot (x y : Term) : Bool :=
  match x, y with
  | .NegationExpression
      (.ComplexClosure [.ConnectionForm .REF, .AssociativeRoot]),
      .ComplexClosure [.AssociativeRoot, .ConnectionForm .VAL] => true
  | _, _ => false

/-- Specific pattern `-♂♂x == ♂x♀` of `_check_negation_rules`
(lines 787-798). -/
def negPatRefRef (x y : Term) : Bool :=
  match x, y with
  | .NegationExpression
      (.ComplexClosure [.ConnectionForm .REF, .ConnectionForm .REF, p2]),
      .ComplexClosure [.ConnectionForm .REF, q1, .ConnectionForm .VAL] =>
    (match p2, q1 with
     | .Symbol pn, .Symbol qn => pn == qn
     | _, _ => false)
  | _, _ => false

/-- Specific pattern `-♂x♀ == ♂♂x` of `_check_negation_rules`
(lines 814-825). -/
def negPatRefVal (x y : Term) : Bool :=
  match x, y with
  | .NegationExpression
      (.ComplexClosure [.ConnectionForm .REF, p1, .ConnectionForm .VAL]),
      .ComplexClosure [.ConnectionForm .REF, .ConnectionForm .REF, q2] =>
    (match p1, q2 with
     | .Symbol pn, .Symbol qn => pn == qn
     | _, _ => false)
  | _, _ => false

/-- `_check_negation_rules` (lines 715-840): the sequence of `if ...:
return True` blocks, each pattern applied in both argument orders, in
source order. -/
def checkNegationRules (e1 e2 : Term) : Bool :=
  negPatRefGeneral e1 e2 || (negPatRefGeneral e2 e1 ||
  (negPatValGeneral e1 e2 || (negPatValGeneral e2 e1 ||
  (negPatRefRoot e1 e2 || (negPatRefRoot e2 e1 ||
  (negPatRefRef e1 e2 || (negPatRefRef e2 e1 ||
  (negPatRefVal e1 e2 || (negPatRefVal e2 e1 || false)))))))))

/-- `_expand_power_loop` (lines 663-673), with explicit fuel: `a^1 → a`,
`a^2 → Connection(a,a)`, otherwise `a^n → Connection(a^(n-1)
expanded, a)`.  For an exponent `≤ 0` the Python recursion on `n-1` never
reaches a base case, so every fuel yields `none` (a `RecursionError`). -/
def expandPowerLoopF : Nat → Term → Int → Option Term
  | 0, _, _ => none
  | fuel+1, base, n =>
    if n == 1 then some base
    else if n == 2 then some (.Connection base base)
    else
      match expandPowerLoopF fuel base (n - 1) with
      | some prev => some (.Connection prev base)
      | none => none

/-- `_expand_power_loop` with fuel `n.toNat + 1`, which is proven
sufficient whenever the recursion terminates at all (`1 ≤ n`). -/
def expandPowerLoop (base : Term) (n : Int) : Option Term :=
  expandPowerLoopF (n.toNat + 1) base n

/-- The left-associative self-connection chain of `k+1` copies of `base`:
`connectionChain base 0 = base`,
`connectionChain base (k+1) = Connection(connectionChain base k, base)`. -/
def connectionChain (base : Term) : Nat → Term
  | 0 => base
  | k+1 => .Connection (connectionChain base k) base

/-- The value `_expand_power_loop` computes for a positive exponent `n`:
`base` self-connected `n` times, left-associatively. -/
def mkChain (base : Term) (n : Int) : Term :=
  connectionChain base (n.toNat - 1)

/-- `_is_repeated_char_pattern` (lines 675-679): every character of `text`
(compared as a one-character string) equals the symbol's name. -/
def isRepeatedCharPattern (text : String) (base : Term) : Bool :=
  match base with
  | .Symbol name => text.data.all (fun c => c.toString == name)
  | _ => false

/-- The `a^2 == a → a` special case of `_check_power_loop_rules`
(lines 624-627). -/
def powerPat2 (x y : Term) : Bool :=
  match x, y with
  | .PowerLoopExpression base exp, .Connection r v =>
    (exp == 2) && eqTerm r base && eqTerm v base
  | _, _ => false

/-- The `a^3 == (a → a) → a` special case of `_check_power_loop_rules`
(lines 635-641). -/
def powerPat3 (x y : Term) : Bool :=
  match x, y with
  | .PowerLoopExpression base exp, .Connection r v =>
    (exp == 3) &&
      (match r with
       | .Connection rr rv => eqTerm rr base && eqTerm rv base
       | _ => false) && eqTerm v base
  | _, _ => false

/-- The repeated-character special case of `_check_power_loop_rules`
(lines 654-659): `a^n` against a symbol of `n` copies of `a`'s name. -/
def powerPatRepeated (x y : Term) : Bool :=
  match x, y with
  | .PowerLoopExpression base exp, .Symbol name =>
    isRepeatedCharPattern name base && ((name.length : Int) == exp)
  | _, _ => false

/-- The pure special cases at the end of `_check_power_loop_rules`
(lines 622-661), each in both argument orders, in source order. -/
def checkPowerLoopSpecials (e1 e2 : Term) : Bool :=
  powerPat2 e1 e2 || (powerPat2 e2 e1 ||
  (powerPat3 e1 e2 || (powerPat3 e2 e1 ||
  (powerPatRepeated e1 e2 || (powerPatRepeated e2 e1 || false)))))

/-- Pattern 1 of `_check_closure_decomposition_rule` (lines 846-850): two
`ComplexClosure`s of lengths 3 and 2 whose `str()` forms are `♂∞♀` and
`(♂∞)♀`. -/
def decompPatClosures (x y : Term) : Bool :=
  match x, y with
  | .ComplexClosure ps, .ComplexClosure qs =>
    (ps.length == 3) && (qs.length == 2) &&
      (strTerm (.ComplexClosure ps) == "♂∞♀") &&
      (strTerm (.ComplexClosure qs) == "(♂∞)♀")
  | _, _ => false

/-- Pattern 2 of `_check_closure_decomposition_rule` (lines 858-863): a
length-3 closure printing as `♂∞♀` against any `Connection`. -/
def decompPatConnection (x y : Term) : Bool :=
  match x, y with
  | .ComplexClosure ps, .Connection _ _ =>
    (ps.length == 3) && (strTerm (.ComplexClosure ps) == "♂∞♀")
  | _, _ => false

/-- `_check_closure_decomposition_rule` (lines 842-870). -/
def checkClosureDecompositionRule (e1 e2 : Term) : Bool :=
  decompPatClosures e1 e2 || (decompPatClosures e2 e1 ||
  (decompPatConnection e1 e2 || (decompPatConnection e2 e1 || false)))

/-- The general `r♀ ≡ (r with one less ♀) → r♀` pattern of
`_check_closure_composition_rule` (lines 875-903): a closure run ending in
VAL against a `Connection` of two closures, the reference being the run
without its last element and the value being the run itself. -/
def compPatVal (x y : Term) : Bool :=
  match x, y with
  | .ComplexClosure ps, .Connection cr cv =>
    decide (1 ≤ ps.length) && lastIsForm .VAL ps &&
      (match cr, cv with
       | .ComplexClosure rs, .ComplexClosure vs =>
         (rs.length == ps.length - 1) && eqTermList rs ps.dropLast &&
           eqTermList vs ps
       | _, _ => false)
  | _, _ => false

/-- The multi-`♀` variant of the same expansion (lines 906-937, and again
verbatim at lines 940-970): additionally requires the last two parts to be
VAL forms. -/
def compPatValVal (x y : Term) : Bool :=
  match x, y with
  | .ComplexClosure ps, .Connection cr cv =>
    decide (2 ≤ ps.length) && lastIsForm .VAL ps &&
      lastIsForm .VAL ps.dropLast &&
      (match cr, cv with
       | .ComplexClosure rs, .ComplexClosure vs =>
         (rs.length == ps.length - 1) && eqTermList rs ps.dropLast &&
           eqTermList vs ps
       | _, _ => false)
  | _, _ => false

/-- The triple-`♀` variant (lines 973-1007): the last three parts must be
VAL forms. -/
def compPatValValVal (x y : Term) : Bool :=
  match x, y with
  | .ComplexClosure ps, .Connection cr cv =>
    decide (3 ≤ ps.length) && lastIsForm .VAL ps &&
      lastIsForm .VAL ps.dropLast && lastIsForm .VAL ps.dropLast.dropLast &&
      (match cr, cv with
       | .ComplexClosure rs, .ComplexClosure vs =>
         (rs.length == ps.length - 1) && eqTermList rs ps.dropLast &&
           eqTermList vs ps
       | _, _ => false)
  | _, _ => false

/-- The `r♀ ≡ r → r♀` symbol pattern (lines 1010-1025): `x` is
`[Symbol r, ♀]` and `y` is `Connection(Symbol r, [Symbol r, ♀])`. -/
def compPatSymbolVal (x y : Term) : Bool :=
  match x, y with
  | .ComplexClosure [p0, .ConnectionForm .VAL], .Connection cr cv =>
    (match p0 with
     | .Symbol _ =>
       (match cr, cv with
        | .Symbol _, .ComplexClosure [q0, .ConnectionForm .VAL] =>
          (match q0 with
           | .Symbol _ => eqTerm cr p0 && eqTerm q0 p0
           | _ => false)
        | _, _ => false)
     | _ => false)
  | _, _ => false

/-- The `♂v ≡ ♂v → v` pattern (lines 1043-1058). -/
def compPatRefSym (x y : Term) : Bool :=
  match x, y with
  | .ComplexClosure [.ConnectionForm .REF, p1], .Connection cr cv =>
    (match p1 with
     | .Symbol _ =>
       (match cr, cv with
        | .ComplexClosure [.ConnectionForm .REF, q1], .Symbol _ =>
          (match q1 with
           | .Symbol _ => eqTerm q1 p1 && eqTerm cv p1
           | _ => false)
        | _, _ => false)
     | _ => false)
  | _, _ => false

/-- The `♂♂v ≡ ♂♂v → ♂v` pattern (lines 1076-1099). -/
def compPatRefRefSym (x y : Term) : Bool :=
  match x, y with
  | .ComplexClosure [.ConnectionForm .REF, .ConnectionForm .REF, p2],
      .Connection cr cv =>
    (match p2 with
     | .Symbol _ =>
       (match cr, cv with
        | .ComplexClosure [.ConnectionForm .REF, .ConnectionForm .REF, r2],
            .ComplexClosure [.ConnectionForm .REF, v1] =>
          (match r2, v1 with
           | .Symbol _, .Symbol _ => eqTerm r2 p2 && eqTerm v1 p2
           | _, _ => false)
        | _, _ => false)
     | _ => false)
  | _, _ => false

/-- The `♂♂♂v ≡ ♂♂♂v → ♂♂v` pattern (lines 1125-1154). -/
def compPatRefRefRefSym (x y : Term) : Bool :=
  match x, y with
  | .ComplexClosure [.ConnectionForm .REF, .ConnectionForm .REF,
      .ConnectionForm .REF, p3], .Connection cr cv =>
    (match p3 with
     | .Symbol _ =>
       (match cr, cv with
        | .ComplexClosure [.ConnectionForm .REF, .ConnectionForm .REF,
            .ConnectionForm .REF, r3],
            .ComplexClosure [.ConnectionForm .REF, .ConnectionForm .REF, v2] =>
          (match r3, v2 with
           | .Symbol _, .Symbol _ => eqTerm r3 p3 && eqTerm v2 p3
           | _, _ => false)
        | _, _ => false)
     | _ => false)
  | _, _ => false

/-- The `∞♀ ≡ ∞ → ∞♀` pattern (lines 1186-1199): no cross-equality is
required between the two `∞♀` closures. -/
def compPatRootVal (x y : Term) : Bool :=
  match x, y with
  | .ComplexClosure [.AssociativeRoot, .ConnectionForm .VAL],
      .Connection .AssociativeRoot
        (.ComplexClosure [.AssociativeRoot, .ConnectionForm .VAL]) => true
  | _, _ => false

/-- `_check_closure_composition_rule` (lines 872-1214): all patterns in
source order, each in both argument orders; the `compPatValVal` block
appears twice because the source repeats it verbatim. -/
def checkClosureCompositionRule (e1 e2 : Term) : Bool :=
  compPatVal e1 e2 || (compPatVal e2 e1 ||
  (compPatValVal e1 e2 || (compPatValVal e2 e1 ||
  (compPatValVal e1 e2 || (compPatValVal e2 e1 ||
  (compPatValValVal e1 e2 || (compPatValValVal e2 e1 ||
  (compPatSymbolVal e1 e2 || (compPatSymbolVal e2 e1 ||
  (compPatRefSym e1 e2 || (compPatRefSym e2 e1 ||
  (compPatRefRefSym e1 e2 || (compPatRefRefSym e2 e1 ||
  (compPatRefRefRefSym e1 e2 || (compPatRefRefRefSym e2 e1 ||
  (compPatRootVal e1 e2 || (compPatRootVal e2 e1 || false)))))))))))))))))

/-- `_check_mtc_closure_expansion` pattern (lines 1219-1224): `♂∞♀` (by
`str()`) against a `Connection` whose value is a closure printing as
`♂∞♀`. -/
def mtcExpPat (x y : Term) : Bool :=
  match x, y with
  | .ComplexClosure ps, .Connection _ cv =>
    (ps.length == 3) && (strTerm (.ComplexClosure ps) == "♂∞♀") &&
      (match cv with
       | .ComplexClosure vs => strTerm (.ComplexClosure vs) == "♂∞♀"
       | _ => false)
  | _, _ => false

/-- `_check_mtc_closure_expansion` (lines 1216-1232). -/
def checkMtcClosureExpansion (e1 e2 : Term) : Bool :=
  mtcExpPat e1 e2 || (mtcExpPat e2 e1 || false)

/-- `_check_nested_closure_rule` pattern (lines 1237-1245): `♂∞♀` against
a `Connection` whose reference is a `Connection` ending in `∞` and whose
value is a closure printing as `♂∞♀`. -/
def nestedPat (x y : Term) : Bool :=
  match x, y with
  | .ComplexClosure ps, .Connection cr cv =>
    (ps.length == 3) && (strTerm (.ComplexClosure ps) == "♂∞♀") &&
      (match cr with
       | .Connection _ rv =>
         (match cv with
          | .ComplexClosure vs =>
            (strTerm (.ComplexClosure vs) == "♂∞♀") && isRoot rv
          | _ => false)
       | _ => false)
  | _, _ => false

/-- `_check_nested_closure_rule` (lines 1234-1255). -/
def checkNestedClosureRule (e1 e2 : Term) : Bool :=
  nestedPat e1 e2 || (nestedPat e2 e1 || false)

/-- `_check_meta_self_closure` pattern (lines 1260-1262): any
`ComplexClosure` with exactly 2 parts against any `Connection` whose value
is `AssociativeRoot`. -/
def metaPat (x y : Term) : Bool :=
  match x, y with
  | .ComplexClosure ps, .Connection _ cv => (ps.length == 2) && isRoot cv
  | _, _ => false

/-- `_check_meta_self_closure` (lines 1257-1268). -/
def checkMetaSelfClosure (e1 e2 : Term) : Bool :=
  metaPat e1 e2 || (metaPat e2 e1 || false)

/-- `_is_infinity_chain` (lines 1288-1306): a non-`Connection` is not a
chain; a `Connection` is a chain when its reference is `∞` or itself a
chain `Connection`, and its value is `∞`. -/
def isInfinityChain : Term → Bool
  | .Connection r v => (isRoot r || (isConn r && isInfinityChain r)) && isRoot v
  | _ => false

/-- Case 1 of `_check_extended_self_closure` (lines 1274-1277): `∞`
against a `Connection` that is an infinity chain. -/
def extChainPat (x y : Term) : Bool :=
  isRoot x && isConn y && isInfinityChain y

/-- Case 2 of `_check_extended_self_closure` (lines 1280-1284): two
`Connection`s that are both infinity chains. -/
def extBothPat (x y : Term) : Bool :=
  (isConn x && isConn y) && (isInfinityChain x && isInfinityChain y)

/-- `_check_extended_self_closure` (lines 1270-1286). -/
def checkExtendedSelfClosure (e1 e2 : Term) : Bool :=
  extChainPat e1 e2 || (extChainPat e2 e1 || (extBothPat e1 e2 || false))

/-- The `rv ≡ r → v` existence pattern of `_check_basic_axioms`
(lines 1311-1317): a two-character symbol against the connection of its
two one-character symbols. -/
def basicTwoCharPat (x y : Term) : Bool :=
  match x, y with
  | .Symbol name, .Connection r v =>
    (match name.data with
     | [c1, c2] => eqTerm r (.Symbol c1.toString) && eqTerm v (.Symbol c2.toString)
     | _ => false)
  | _, _ => false

/-- The repeated-character expansion pattern of `_check_basic_axioms`
(lines 1327-1355): `aaa ≡ (a → a) → a` and `aaaa ≡ ((a → a) → a) → a`;
longer repeated symbols fall through to `False`. -/
def basicRepeatedPat (x y : Term) : Bool :=
  match x, y with
  | .Symbol name, .Connection r v =>
    (match name.data with
     | c :: rest =>
       decide (3 ≤ name.length) && rest.all (fun d => d == c) &&
         (if name.length == 3 then
           (match r with
            | .Connection (.Symbol a) (.Symbol b) =>
              (a == c.toString) && (b == c.toString) &&
                (match v with
                 | .Symbol d => d == c.toString
                 | _ => false)
            | _ => false)
          else if name.length == 4 then
           (match r with
            | .Connection (.Connection (.Symbol a) (.Symbol b)) (.Symbol d) =>
              (a == c.toString) && (b == c.toString) && (d == c.toString) &&
                (match v with
                 | .Symbol e => e == c.toString
                 | _ => false)
            | _ => false)
          else false)
     | [] => false)
  | _, _ => false

/-- The `() ≡ ∞` pattern of `_check_basic_axioms` (lines 1386-1389):
`Connection(AbitStart, AbitEnd)` against `AssociativeRoot`. -/
def basicParenPat (x y : Term) : Bool :=
  match x, y with
  | .Connection .AbitStart .AbitEnd, .AssociativeRoot => true
  | _, _ => false

/-- The `∞ ≡ ∞→∞` pattern of `_check_basic_axioms` (lines 1396-1400). -/
def basicSelfClosurePat (x y : Term) : Bool :=
  match x, y with
  | .AssociativeRoot, .Connection .AssociativeRoot .AssociativeRoot => true
  | _, _ => false

/-- The abit identity check of `_check_basic_axioms` (lines 1408-1410):
both terms are abits and `type(e1) == type(e2)`. -/
def abitIdentity (x y : Term) : Bool :=
  match x, y with
  | .AbitStart, .AbitStart => true
  | .AbitEnd, .AbitEnd => true
  | .AbitConnect, .AbitConnect => true
  | .AbitDisconnect, .AbitDisconnect => true
  | _, _ => false

/-- `_check_basic_axioms` (lines 1308-1412). -/
def checkBasicAxiomRules (e1 e2 : Term) : Bool :=
  basicTwoCharPat e1 e2 || (basicTwoCharPat e2 e1 ||
  (basicRepeatedPat e1 e2 || (basicRepeatedPat e2 e1 ||
  (basicParenPat e1 e2 || (basicParenPat e2 e1 ||
  (basicSelfClosurePat e1 e2 || (basicSelfClosurePat e2 e1 ||
  (abitIdentity e1 e2 || false))))))))

/-- The pure rules `_check_equivalence` tries after
`_check_power_loop_rules`' recursive steps, folded together with the pure
tail of `_check_power_loop_rules` itself, in source order (lines 574-606). -/
def restRules (e1 e2 : Term) : Bool :=
  checkPowerLoopSpecials e1 e2 || (checkClosureDecompositionRule e1 e2 ||
  (checkClosureCompositionRule e1 e2 || (checkMtcClosureExpansion e1 e2 ||
  (checkNestedClosureRule e1 e2 || (checkMetaSelfClosure e1 e2 ||
  (checkExtendedSelfClosure e1 e2 || (checkBasicAxiomRules e1 e2 || false)))))))

/-- Sequencing of Python `if <call>: return True` steps whose call may
diverge: `none` (divergence) stops everything, `some true` short-circuits,
`some false` falls through to the next step. -/
def seqOr (x y : Option Bool) : Option Bool :=
  match x with
  | none => none
  | some true => some true
  | some false => y

/-- `MtcProver.equivalent` / `_check_equivalence` (lines 551-606) with
fuel: structural equality short-circuits to `True`; then the axiom checks
run in source order, where `_check_power_loop_rules` (lines 608-661) first
recursively compares each side's `_expand_power_loop` expansion with the
other side and then falls back to its pure special cases and the remaining
pure rules.  The memoization cache (lines 555-560, keyed by `repr`
strings and consulted only after the structural-equality fast path) is
dropped: this models `equivalent` on a fresh `MtcProver` with memoization
disabled, which is how the spec requires the cache to behave ("a pure
performance aid, never a correctness dependency").  A `none` result models
a Python call that never returns (`RecursionError`). -/
def equivalentF : Nat → Term → Term → Option Bool
  | 0, _, _ => none
  | fuel+1, e1, e2 =>
    if eqTerm e1 e2 then some true
    else if checkMergerOfRecursions e1 e2 then some true
    else if checkNegationRules e1 e2 then some true
    else
      seqOr
        (match e1 with
         | .PowerLoopExpression b n =>
           (match expandPowerLoop b n with
            | some ex => equivalentF fuel ex e2
            | none => none)
         | _ => some false)
        (seqOr
          (match e2 with
           | .PowerLoopExpression b n =>
             (match expandPowerLoop b n with
              | some ex => equivalentF fuel ex e1
              | none => none)
           | _ => some false)
          (some (restRules e1 e2)))

/-- The recursive step of `_check_power_loop_rules` for one side: if `x`
is a power loop, expand it and compare the expansion with `target`. -/
def plStepF (fuel : Nat) (x target : Term) : Option Bool :=
  match x with
  | .PowerLoopExpression b n =>
    (match expandPowerLoop b n with
     | some ex => equivalentF fuel ex target
     | none => none)
  | _ => some false

/-! ## Lexer (`MtcLexer`, lines 176-367) -/

/-- The token kinds emitted by `MtcLexer.get_next_token`. -/
inductive TokType where
  | ABIT_START | ABIT_END | ABIT_CONNECT | ABIT_DISCONNECT
  | ARROW_UNICODE | ARROW_DISCONNECT | NEGATION
  | EQUALS | NOT_EQUALS | POWER_LOOP
  | COMPLEX_CLOSURE | ASSOCIATIVE_ROOT | FORM_REF | FORM_VAL
  | SYMBOL | EOF
deriving DecidableEq, Repr

/-- `AnumToken` without its position field (positions are used only inside
error message strings, which this embedding abbreviates). -/
structure Tok where
  type : TokType
  value : String
deriving DecidableEq, Repr

/-- The characters of the closure alphabet `[u'♂', u'♀', u'∞']`. -/
def formChar (c : Char) : Bool := c = '♂' || c = '♀' || c = '∞'

/-- `current_char.isalnum() or current_char == u'_'` (the symbol
continuation test). -/
def symChar (c : Char) : Bool := c.isAlphanum || c = '_'

/-- Classifies a one-character closure according to the tail of the
`♂♀∞`-branch of `get_next_token` (lines 346-352); a run of length `> 1`
becomes a `COMPLEX_CLOSURE`. -/
def finishClosure (cs : List Char) (rest : List Char) :
    Except String (Tok × List Char) :=
  if 1 < cs.length then .ok (⟨.COMPLEX_CLOSURE, String.mk cs⟩, rest)
  else
    match cs with
    | ['∞'] => .ok (⟨.ASSOCIATIVE_ROOT, "∞"⟩, rest)
    | ['♂'] => .ok (⟨.FORM_REF, "♂"⟩, rest)
    | ['♀'] => .ok (⟨.FORM_VAL, "♀"⟩, rest)
    | _ => .error "Unknown character"

/-- `MtcLexer.get_next_token` (lines 244-367) on the remaining character
list.  Whitespace is skipped; the `-` character becomes an arrow when
followed by `>`, a `NEGATION` when followed by a non-space character other
than `=`/`>`, and `ABIT_DISCONNECT` otherwise; an alphabetic run followed
by closure characters becomes one `COMPLEX_CLOSURE` token (otherwise a
plain `SYMBOL`, via the position restore); a closure-character run
(optionally bracketing one alphanumeric run, `read_complex_closure`,
lines 204-242) becomes a `COMPLEX_CLOSURE` or a single-character token. -/
def getNextToken : List Char → Except String (Tok × List Char)
  | [] => .ok (⟨.EOF, ""⟩, [])
  | c :: rest =>
    if c.isWhitespace then getNextToken rest
    else if c = '(' then .ok (⟨.ABIT_START, "("⟩, rest)
    else if c = ')' then .ok (⟨.ABIT_END, ")"⟩, rest)
    else if c = '+' then .ok (⟨.ABIT_CONNECT, "+"⟩, rest)
    else if c = '-' then
      match rest with
      | '>' :: rest2 => .ok (⟨.ARROW_UNICODE, "->"⟩, rest2)
      | p :: _ =>
        if p ≠ '=' ∧ p ≠ '>' ∧ ¬ p.isWhitespace then
          .ok (⟨.NEGATION, "-"⟩, rest)
        else .ok (⟨.ABIT_DISCONNECT, "-"⟩, rest)
      | [] => .ok (⟨.ABIT_DISCONNECT, "-"⟩, rest)
    else if c = '=' then
      match rest with
      | '=' :: rest2 => .ok (⟨.EQUALS, "=="⟩, rest2)
      | _ => .ok (⟨.EQUALS, "="⟩, rest)
    else if c = '!' ∧ rest.head? = some '=' then
      .ok (⟨.NOT_EQUALS, "!="⟩, rest.tail)
    else if c = '^' then .ok (⟨.POWER_LOOP, "^"⟩, rest)
    else if c = '≡' then .ok (⟨.EQUALS, "=="⟩, rest)
    else if c = '≢' then .ok (⟨.NOT_EQUALS, "!="⟩, rest)
    else if c = '→' then .ok (⟨.ARROW_UNICODE, "→"⟩, rest)
    else if c = '↛' then .ok (⟨.ARROW_DISCONNECT, ","⟩, rest)
    else if c.isAlpha then
      let (symTail, r1) := rest.span symChar
      let sym := String.mk (c :: symTail)
      let (forms, r2) := r1.span formChar
      if forms.isEmpty then .ok (⟨.SYMBOL, sym⟩, r1)
      else .ok (⟨.COMPLEX_CLOSURE, sym ++ String.mk forms⟩, r2)
    else if formChar c then
      let (fs1tail, r1) := rest.span formChar
      let fs1 := c :: fs1tail
      match r1 with
      | d :: r1rest =>
        if d.isAlpha then
          let (symTail, r2) := r1rest.span symChar
          let (fs2, r3) := r2.span formChar
          finishClosure (fs1 ++ (d :: symTail) ++ fs2) r3
        else finishClosure fs1 r1
      | [] => finishClosure fs1 r1
    else if symChar c then
      let (symTail, r1) := rest.span symChar
      .ok (⟨.SYMBOL, String.mk (c :: symTail)⟩, r1)
    else .error ("Unknown character: " ++ c.toString)

/-- Runs the lexer to exhaustion, producing the token stream the parser
consumes (the trailing `EOF` token included).  Each non-`EOF` token
consumes at least one character, so fuel `length + 2` suffices. -/
def tokenizeF : Nat → List Char → Except String (List Tok)
  | 0, _ => .error "FUEL"
  | fuel+1, cs => do
    let (t, rest) ← getNextToken cs
    if t.type = .EOF then pure [t]
    else do
      let ts ← tokenizeF fuel rest
      pure (t :: ts)

/-! ## Parser (`MtcParser`, lines 369-544) -/

/-- `MtcParser.parse_complex_closure` (lines 384-410): turns the closure
token's text into `ComplexClosure` parts (`♂` → REF form, `♀` → VAL form,
`∞` → root, and any other maximal run of characters → one `Symbol`). -/
def parseComplexClosureParts : Nat → List Char → List Term
  | 0, _ => []
  | _, [] => []
  | fuel+1, c :: rest =>
    if c = '♂' then .ConnectionForm .REF :: parseComplexClosureParts fuel rest
    else if c = '♀' then .ConnectionForm .VAL :: parseComplexClosureParts fuel rest
    else if c = '∞' then .AssociativeRoot :: parseComplexClosureParts fuel rest
    else
      let (symTail, rest') := rest.span (fun d => ¬ formChar d)
      .Symbol (String.mk (c :: symTail)) :: parseComplexClosureParts fuel rest'

/-- The parse of `MtcParser.parse` (line 540): an equation, a negated
equation, or a bare expression. -/
inductive ParseResult where
  | EQUATION (left right : Term)
  | NOT_EQUATION (left right : Term)
  | EXPRESSION (t : Term)
deriving Repr

/-- `self.current_token.value.isdigit()`. -/
def isDigits (s : String) : Bool := !s.isEmpty && s.data.all Char.isDigit

/-- `int(exponent_token.value)` for a digit string: the usual base-10
value of its characters. -/
def strToInt (s : String) : Int :=
  (s.data.foldl (fun n c => 10 * n + (c.toNat - Char.toNat '0')) 0 : Nat)

/-- The token types `parse_sequence`'s juxtaposition loop continues on
(lines 495-497). -/
def seqContinueTok (t : TokType) : Bool :=
  match t with
  | .SYMBOL | .ASSOCIATIVE_ROOT | .ABIT_START | .ABIT_END | .ABIT_CONNECT
  | .ABIT_DISCONNECT | .FORM_REF | .FORM_VAL | .COMPLEX_CLOSURE
  | .NEGATION | .POWER_LOOP => true
  | _ => false

/-- The `() ≡ ∞` fix-up inside `parse_sequence` (lines 488-491 and
504-508): if the parsed item is a bare `AbitStart` and the next token is
`ABIT_END`, consume it and replace the item by `AssociativeRoot`. -/
def seqAbitStartFix (e : Term) (toks : List Tok) : Term × List Tok :=
  match e, toks with
  | .AbitStart, t :: r => if t.type = .ABIT_END then (.AssociativeRoot, r) else (e, toks)
  | _, _ => (e, toks)

mutual

/-- `MtcParser.parse_primary` (lines 412-465). -/
def parsePrimary : Nat → List Tok → Except String (Term × List Tok)
  | 0, _ => .error "FUEL"
  | fuel+1, toks =>
    match toks with
    | [] => .error "FUEL"
    | tok :: rest =>
      match tok.type with
      | .NEGATION => do
        let (e, r) ← parsePrimary fuel rest
        pure (.NegationExpression e, r)
      | .SYMBOL => pure (.Symbol tok.value, rest)
      | .ASSOCIATIVE_ROOT => pure (.AssociativeRoot, rest)
      | .ABIT_START =>
        (match rest with
         | t2 :: r2 =>
           if t2.type = .ABIT_END then pure (.AssociativeRoot, r2)
           else do
             let (e, r3) ← parseConnection fuel rest
             match r3 with
             | t3 :: r4 =>
               if t3.type = .ABIT_END then pure (e, r4) else pure (e, r3)
             | [] => pure (e, r3)
         | [] => .error "FUEL")
      | .ABIT_END => pure (.AbitEnd, rest)
      | .ABIT_CONNECT => pure (.AbitConnect, rest)
      | .ABIT_DISCONNECT => pure (.AbitDisconnect, rest)
      | .FORM_REF => pure (.ConnectionForm .REF, rest)
      | .FORM_VAL => pure (.ConnectionForm .VAL, rest)
      | .ARROW_UNICODE => pure (.ConnectionForm .ARROW, rest)
      | .COMPLEX_CLOSURE =>
        pure (.ComplexClosure
          (parseComplexClosureParts tok.value.length tok.value.data), rest)
      | _ => .error "Unexpected token"

/-- `MtcParser.parse_power_loop` (lines 467-482). -/
def parsePowerLoop : Nat → List Tok → Except String (Term × List Tok)
  | 0, _ => .error "FUEL"
  | fuel+1, toks => do
    let (e, r) ← parsePrimary fuel toks
    parsePowerLoopWhile fuel e r

/-- The `while self.current_token.type == 'POWER_LOOP'` loop of
`parse_power_loop` (lines 472-480): the exponent must be a digit-only
`SYMBOL` token. -/
def parsePowerLoopWhile : Nat → Term → List Tok → Except String (Term × List Tok)
  | 0, _, _ => .error "FUEL"
  | fuel+1, e, toks =>
    match toks with
    | tok :: rest =>
      if tok.type = .POWER_LOOP then
        match rest with
        | t2 :: r2 =>
          if t2.type = .SYMBOL ∧ isDigits t2.value then
            parsePowerLoopWhile fuel
              (.PowerLoopExpression e (strToInt t2.value)) r2
          else .error "Expected numeric exponent after ^ operator"
        | [] => .error "Expected numeric exponent after ^ operator"
      else pure (e, toks)
    | [] => pure (e, toks)

/-- `MtcParser.parse_sequence` (lines 484-512). -/
def parseSequence : Nat → List Tok → Except String (Term × List Tok)
  | 0, _ => .error "FUEL"
  | fuel+1, toks => do
    let (e, r) ← parsePowerLoop fuel toks
    let (e2, r2) := seqAbitStartFix e r
    parseSequenceLoop fuel e2 r2

/-- The juxtaposition loop of `parse_sequence` (lines 495-511): keep
absorbing adjacent primaries into a left-nested `Connection`, stopping at
`ABIT_END` and `ARROW_UNICODE` (and at any token outside the continue
set). -/
def parseSequenceLoop : Nat → Term → List Tok → Except String (Term × List Tok)
  | 0, _, _ => .error "FUEL"
  | fuel+1, acc, toks =>
    match toks with
    | tok :: _ =>
      if seqContinueTok tok.type then
        if tok.type = .ABIT_END ∨ tok.type = .ARROW_UNICODE then pure (acc, toks)
        else do
          let (right, ts) ← parsePowerLoop fuel toks
          let (right2, ts2) := seqAbitStartFix right ts
          parseSequenceLoop fuel (.Connection acc right2) ts2
      else pure (acc, toks)
    | [] => pure (acc, toks)

/-- `MtcParser.parse_connection` (lines 514-524). -/
def parseConnection : Nat → List Tok → Except String (Term × List Tok)
  | 0, _ => .error "FUEL"
  | fuel+1, toks => do
    let (l, r) ← parseSequence fuel toks
    parseConnectionLoop fuel l r

/-- The `while ARROW_UNICODE` loop of `parse_connection`
(lines 517-523). -/
def parseConnectionLoop : Nat → Term → List Tok → Except String (Term × List Tok)
  | 0, _, _ => .error "FUEL"
  | fuel+1, left, toks =>
    match toks with
    | tok :: rest =>
      if tok.type = .ARROW_UNICODE then do
        let (right, r2) ← parseSequence fuel rest
        parseConnectionLoop fuel (.Connection left right) r2
      else pure (left, toks)
    | [] => pure (left, toks)

end

/-- `MtcParser.parse_equation` (lines 526-538). -/
def parseEquation (fuel : Nat) (toks : List Tok) :
    Except String (ParseResult × List Tok) := do
  let (l, r) ← parseConnection fuel toks
  match r with
  | tok :: rest =>
    if tok.type = .EQUALS then do
      let (rhs, r2) ← parseConnection fuel rest
      pure (.EQUATION l rhs, r2)
    else if tok.type = .NOT_EQUALS then do
      let (rhs, r2) ← parseConnection fuel rest
      pure (.NOT_EQUATION l rhs, r2)
    else pure (.EXPRESSION l, r)
  | [] => pure (.EXPRESSION l, r)

/-- `MtcParser.parse` (lines 540-544): a full equation followed by `EOF`;
anything else is the trailing-input error. -/
def parseToks (fuel : Nat) (toks : List Tok) : Except String ParseResult := do
  let (res, r) ← parseEquation fuel toks
  match r with
  | tok :: _ =>
    if tok.type = .EOF then pure res else .error "Unexpected symbols at end"
  | [] => .error "Unexpected symbols at end"

/-- Lex and parse a formula string, with fuel ample for the inputs at
hand (the parser makes a bounded number of calls per consumed token). -/
def parseText (s : String) : Except String ParseResult := do
  let toks ← tokenizeF (s.data.length + 2) s.data
  parseToks (8 * s.data.length + 32) toks

/-- `MtcProver.parse_and_prove` (lines 1414-1432) with fuel for the
equivalence engine: equations prove via `equivalent`, inequations via its
negation, bare expressions are `True`, and any parse/lex error is caught
and reported as `False`.  A `none` result models the engine exceeding
CPython's recursion limit inside `equivalent`. -/
def parseAndProveF (fuel : Nat) (s : String) : Option Bool :=
  match parseText s with
  | .ok (.EQUATION l r) => equivalentF fuel l r
  | .ok (.NOT_EQUATION l r) => (equivalentF fuel l r).map (fun b => !b)
  | .ok (.EXPRESSION _) => some true
  | .error _ => some false


/-! ## Definitions used only to state the claims -/

/-- The infinity-chain predicate as the specification words it: a term is
an infinity chain iff it is `AssociativeRoot`, or a `Connection` whose
value is `AssociativeRoot` and whose reference is itself an infinity
chain.  Clearly distinguished from the source's `isInfinityChain`, to be
compared with it. -/
def specInfinityChain : Term → Bool
  | .AssociativeRoot => true
  | .Connection r .AssociativeRoot => specInfinityChain r
  | _ => false

/-- Weight of the power-loop spine of a term: the only recursion
`equivalent` performs is through `_expand_power_loop`, whose result either
drops the outer `PowerLoopExpression` (exponent 1) or is a `Connection`
(exponent ≥ 2), so this weight strictly decreases along every recursive
call. -/
def wPL : Term → Nat
  | .PowerLoopExpression b _ => wPL b + 1
  | _ => 0

/-- All exponents along the power-loop spine are positive — the condition
under which `_expand_power_loop` (and hence `equivalent`) terminates. -/
def positiveSpine : Term → Bool
  | .PowerLoopExpression b n => decide (1 ≤ n) && positiveSpine b
  | _ => true

/-- The Python call `equivalent(t1, t2)` returns the boolean `r`:
some fuel (hence, by monotonicity, every larger fuel) yields `some r`. -/
def pyEquivalent (t1 t2 : Term) (r : Bool) : Prop :=
  ∃ fuel, equivalentF fuel t1 t2 = some r

/-- The Python call `equivalent(t1, t2)` never returns: no amount of fuel
produces a result (in CPython the stack grows until `RecursionError`). -/
def pyEquivalentDiverges (t1 t2 : Term) : Prop :=
  ∀ fuel, equivalentF fuel t1 t2 = none

/-! ## Basic lemmas about the embedding -/

mutual

theorem eqTerm_refl : (a : Term) → eqTerm a a = true
  | .Symbol _ => by simp [eqTerm]
  | .Connection r v => by simp [eqTerm, eqTerm_refl r, eqTerm_refl v]
  | .AbitStart => rfl
  | .AbitEnd => rfl
  | .AbitConnect => rfl
  | .AbitDisconnect => rfl
  | .AssociativeRoot => rfl
  | .ConnectionForm _ => by simp [eqTerm]
  | .NegationExpression e => by simp [eqTerm, eqTerm_refl e]
  | .PowerLoopExpression b n => by simp [eqTerm, eqTerm_refl b]
  | .ComplexClosure ps => by simp [eqTerm, eqTermList_refl ps]

theorem eqTermList_refl : (l : List Term) → eqTermList l l = true
  | [] => rfl
  | a :: as => by simp [eqTermList, eqTerm_refl a, eqTermList_refl as]

end

theorem eqTerm_sound : ∀ a b, eqTerm a b = true → a = b := by
  apply eqTerm.induct (fun a b => eqTerm a b = true → a = b)
      (fun l l' => eqTermList l l' = true → l = l')
  · intro a b h
    simp [eqTerm] at h
    rw [h]
  · intro r1 v1 r2 v2 ih1 ih2 h
    simp [eqTerm] at h
    rw [ih1 h.1, ih2 h.2]
  · intro _; rfl
  · intro _; rfl
  · intro _; rfl
  · intro _; rfl
  · intro _; rfl
  · intro f1 f2 h
    simp [eqTerm] at h
    rw [h]
  · intro e1 e2 ih h
    simp [eqTerm] at h
    rw [ih h]
  · intro b1 n1 b2 n2 ih h
    simp [eqTerm] at h
    rw [ih h.1, h.2]
  · intro p1 p2 ih h
    simp [eqTerm] at h
    rw [ih h]
  · intro t x hS hC hSt hEn hCo hDi hRo hF hN hP hCC
    cases t <;> cases x <;> intro hEq <;>
      first
        | exact (hS _ _ rfl rfl).elim
        | exact (hC _ _ _ _ rfl rfl).elim
        | exact (hSt rfl rfl).elim
        | exact (hEn rfl rfl).elim
        | exact (hCo rfl rfl).elim
        | exact (hDi rfl rfl).elim
        | exact (hRo rfl rfl).elim
        | exact (hF _ _ rfl rfl).elim
        | exact (hN _ _ rfl rfl).elim
        | exact (hP _ _ _ _ rfl rfl).elim
        | exact (hCC _ _ rfl rfl).elim
        | simp [eqTerm] at hEq
  · intro _; rfl
  · intro a as b bs ih1 ih2 h
    simp [eqTermList] at h
    rw [ih1 h.1, ih2 h.2]
  · intro t x hNil hCons
    cases t <;> cases x <;> intro hEq <;>
      first
        | exact (hNil rfl rfl).elim
        | exact (hCons _ _ _ _ rfl rfl).elim
        | simp [eqTermList] at hEq

theorem eqTerm_eq_true_iff {a b : Term} : eqTerm a b = true ↔ a = b :=
  ⟨eqTerm_sound a b, fun h => h ▸ eqTerm_refl a⟩

theorem eqTermList_sound : ∀ a b, eqTermList a b = true → a = b := by
  intro a b h
  induction a generalizing b with
  | nil => cases b with
    | nil => rfl
    | cons x xs => simp [eqTermList] at h
  | cons x xs ih => cases b with
    | nil => simp [eqTermList] at h
    | cons y ys =>
      simp [eqTermList] at h
      rw [eqTerm_sound x y h.1, ih ys h.2]

theorem expandPowerLoopF_nonpos (b : Term) :
    ∀ f (n : Int), n ≤ 0 → expandPowerLoopF f b n = none := by
  intro f
  induction f with
  | zero => intro n _; rfl
  | succ f ih =>
    intro n hn
    have h1 : (n == 1) = false := by simp; omega
    have h2 : (n == 2) = false := by simp; omega
    simp [expandPowerLoopF, h1, h2, ih (n - 1) (by omega)]

theorem expandPowerLoopF_pos (b : Term) :
    ∀ f (n : Int), 1 ≤ n → n.toNat ≤ f →
      expandPowerLoopF f b n = some (connectionChain b (n.toNat - 1)) := by
  intro f
  induction f with
  | zero => intro n h1 h2; omega
  | succ f ih =>
    intro n h1 h2
    by_cases e1 : n = 1
    · subst e1; rfl
    · by_cases e2 : n = 2
      · subst e2; rfl
      · have hb1 : (n == 1) = false := by simp [e1]
        have hb2 : (n == 2) = false := by simp [e2]
        have h3 : 3 ≤ n := by omega
        rw [expandPowerLoopF]
        simp only [hb1, hb2, Bool.false_eq_true, if_false]
        rw [ih (n - 1) (by omega) (by omega)]
        have hk : n.toNat - 1 = ((n - 1).toNat - 1) + 1 := by omega
        rw [hk, connectionChain]

theorem expandPowerLoop_pos (b : Term) (n : Int) (h : 1 ≤ n) :
    expandPowerLoop b n = some (mkChain b n) :=
  expandPowerLoopF_pos b (n.toNat + 1) n h (by omega)

theorem expandPowerLoop_nonpos (b : Term) (n : Int) (h : n ≤ 0) :
    expandPowerLoop b n = none :=
  expandPowerLoopF_nonpos b (n.toNat + 1) n h

theorem equivalentF_succ (fuel : Nat) (e1 e2 : Term) :
    equivalentF (fuel+1) e1 e2 =
      (if eqTerm e1 e2 then some true
       else if checkMergerOfRecursions e1 e2 then some true
       else if checkNegationRules e1 e2 then some true
       else seqOr (plStepF fuel e1 e2)
         (seqOr (plStepF fuel e2 e1) (some (restRules e1 e2)))) := rfl

theorem plStepF_not_pl (fuel : Nat) (x target : Term)
    (h : ∀ b n, x ≠ .PowerLoopExpression b n) :
    plStepF fuel x target = some false := by
  cases x with
  | PowerLoopExpression b n => exact absurd rfl (h b n)
  | Symbol _ => rfl
  | Connection _ _ => rfl
  | AbitStart => rfl
  | AbitEnd => rfl
  | AbitConnect => rfl
  | AbitDisconnect => rfl
  | AssociativeRoot => rfl
  | ConnectionForm _ => rfl
  | NegationExpression _ => rfl
  | ComplexClosure _ => rfl

/-- A determined result of `equivalentF` is preserved by one more unit of
fuel (and hence, by iteration, by any larger fuel): the fuel bound is a
device of the embedding, not of the Python code. -/
theorem equivalentF_mono_succ :
    ∀ fuel e1 e2 r, equivalentF fuel e1 e2 = some r →
      equivalentF (fuel+1) e1 e2 = some r := by
  intro fuel
  induction fuel with
  | zero => intro e1 e2 r h; simp [equivalentF] at h
  | succ fuel ih =>
    intro e1 e2 r h
    have hstep : ∀ x t a, plStepF fuel x t = some a →
        plStepF (fuel+1) x t = some a := by
      intro x t a hx
      cases x <;> simp only [plStepF] at hx ⊢ <;> try exact hx
      cases hexp : expandPowerLoop _ _ with
      | none => rw [hexp] at hx; exact absurd hx (by simp)
      | some ex =>
        rw [hexp] at hx
        simp only [] at hx ⊢
        exact ih _ _ _ hx
    rw [equivalentF_succ] at h
    rw [equivalentF_succ]
    by_cases h1 : eqTerm e1 e2 = true
    · simpa [h1] using h
    · simp only [h1, Bool.false_eq_true, if_false] at h ⊢
      by_cases h2 : checkMergerOfRecursions e1 e2 = true
      · simpa [h2] using h
      · simp only [h2, Bool.false_eq_true, if_false] at h ⊢
        by_cases h3 : checkNegationRules e1 e2 = true
        · simpa [h3] using h
        · simp only [h3, Bool.false_eq_true, if_false] at h ⊢
          cases hA : plStepF fuel e1 e2 with
          | none => rw [hA] at h; simp [seqOr] at h
          | some a =>
            rw [hA] at h
            rw [hstep _ _ _ hA]
            cases a with
            | true => simpa [seqOr] using h
            | false =>
              simp only [seqOr] at h ⊢
              cases hB : plStepF fuel e2 e1 with
              | none => rw [hB] at h; simp [seqOr] at h
              | some b =>
                rw [hB] at h
                rw [hstep _ _ _ hB]
                exact h

theorem equivalentF_mono {f f' : Nat} (hle : f ≤ f') {e1 e2 : Term}
    {r : Bool} (h : equivalentF f e1 e2 = some r) :
    equivalentF f' e1 e2 = some r := by
  induction f' with
  | zero => cases Nat.le_zero.mp hle; exact h
  | succ f' ih =>
    rcases Nat.lt_or_ge f (f' + 1) with hlt | hge
    · exact equivalentF_mono_succ f' e1 e2 r (ih (Nat.lt_succ_iff.mp hlt))
    · have heq : f = f' + 1 := Nat.le_antisymm hle hge
      rw [← heq]; exact h

/-- `pyEquivalent` is deterministic: two determined results agree. -/
theorem pyEquivalent_unique {t1 t2 : Term} {r r' : Bool}
    (h : pyEquivalent t1 t2 r) (h' : pyEquivalent t1 t2 r') : r = r' := by
  obtain ⟨f, hf⟩ := h
  obtain ⟨f', hf'⟩ := h'
  rcases Nat.le_total f f' with hle | hle
  · have h2 := equivalentF_mono hle hf
    rw [h2] at hf'
    exact Option.some_inj.mp hf'
  · have h2 := equivalentF_mono hle hf'
    rw [h2] at hf
    exact (Option.some_inj.mp hf).symm

/-! ## Symmetry of the pure rules

Every pure rule is a chain of `if` blocks in which each pattern is tried
in both argument orders, so swapping the arguments permutes the disjuncts
of a boolean `or`-chain pairwise. -/

theorem orPairSwap (p q t t' : Bool) (h : t = t') :
    (p || (q || t)) = (q || (p || t')) := by
  subst h; cases p <;> cases q <;> simp

theorem checkMergerOfRecursions_symm (e1 e2 : Term) :
    checkMergerOfRecursions e1 e2 = checkMergerOfRecursions e2 e1 := by
  unfold checkMergerOfRecursions
  exact orPairSwap _ _ _ _ rfl

theorem checkNegationRules_symm (e1 e2 : Term) :
    checkNegationRules e1 e2 = checkNegationRules e2 e1 := by
  unfold checkNegationRules
  exact orPairSwap _ _ _ _ (orPairSwap _ _ _ _ (orPairSwap _ _ _ _
    (orPairSwap _ _ _ _ (orPairSwap _ _ _ _ rfl))))

theorem checkPowerLoopSpecials_symm (e1 e2 : Term) :
    checkPowerLoopSpecials e1 e2 = checkPowerLoopSpecials e2 e1 := by
  unfold checkPowerLoopSpecials
  exact orPairSwap _ _ _ _ (orPairSwap _ _ _ _ (orPairSwap _ _ _ _ rfl))

theorem checkClosureDecompositionRule_symm (e1 e2 : Term) :
    checkClosureDecompositionRule e1 e2 = checkClosureDecompositionRule e2 e1 := by
  unfold checkClosureDecompositionRule
  exact orPairSwap _ _ _ _ (orPairSwap _ _ _ _ rfl)

theorem checkClosureCompositionRule_symm (e1 e2 : Term) :
    checkClosureCompositionRule e1 e2 = checkClosureCompositionRule e2 e1 := by
  unfold checkClosureCompositionRule
  exact orPairSwap _ _ _ _ (orPairSwap _ _ _ _ (orPairSwap _ _ _ _
    (orPairSwap _ _ _ _ (orPairSwap _ _ _ _ (orPairSwap _ _ _ _
    (orPairSwap _ _ _ _ (orPairSwap _ _ _ _ (orPairSwap _ _ _ _ rfl))))))))

theorem checkMtcClosureExpansion_symm (e1 e2 : Term) :
    checkMtcClosureExpansion e1 e2 = checkMtcClosureExpansion e2 e1 := by
  unfold checkMtcClosureExpansion
  exact orPairSwap _ _ _ _ rfl

theorem checkNestedClosureRule_symm (e1 e2 : Term) :
    checkNestedClosureRule e1 e2 = checkNestedClosureRule e2 e1 := by
  unfold checkNestedClosureRule
  exact orPairSwap _ _ _ _ rfl

theorem checkMetaSelfClosure_symm (e1 e2 : Term) :
    checkMetaSelfClosure e1 e2 = checkMetaSelfClosure e2 e1 := by
  unfold checkMetaSelfClosure
  exact orPairSwap _ _ _ _ rfl

theorem extBothPat_symm (x y : Term) : extBothPat x y = extBothPat y x := by
  unfold extBothPat
  rw [Bool.and_comm (isConn x) (isConn y),
    Bool.and_comm (isInfinityChain x) (isInfinityChain y)]

theorem checkExtendedSelfClosure_symm (e1 e2 : Term) :
    checkExtendedSelfClosure e1 e2 = checkExtendedSelfClosure e2 e1 := by
  unfold checkExtendedSelfClosure
  exact orPairSwap _ _ _ _ (by rw [extBothPat_symm])

theorem abitIdentity_symm (x y : Term) : abitIdentity x y = abitIdentity y x := by
  cases x <;> cases y <;> rfl

theorem checkBasicAxiomRules_symm (e1 e2 : Term) :
    checkBasicAxiomRules e1 e2 = checkBasicAxiomRules e2 e1 := by
  unfold checkBasicAxiomRules
  exact orPairSwap _ _ _ _ (orPairSwap _ _ _ _ (orPairSwap _ _ _ _
    (orPairSwap _ _ _ _ (by rw [abitIdentity_symm]))))

theorem restRules_symm (e1 e2 : Term) : restRules e1 e2 = restRules e2 e1 := by
  unfold restRules
  rw [checkPowerLoopSpecials_symm, checkClosureDecompositionRule_symm,
    checkClosureCompositionRule_symm, checkMtcClosureExpansion_symm,
    checkNestedClosureRule_symm, checkMetaSelfClosure_symm,
    checkExtendedSelfClosure_symm, checkBasicAxiomRules_symm]

/-- Determined results of the engine are symmetric at one and the same
fuel: the two recursive power-loop steps of `_check_power_loop_rules` are
literally the same two calls in either argument order, and every pure rule
is pairwise mirrored. -/
theorem equivalentF_symm_some :
    ∀ {f : Nat} {e1 e2 : Term} {r1 r2 : Bool},
      equivalentF f e1 e2 = some r1 → equivalentF f e2 e1 = some r2 →
      r1 = r2 := by
  intro f e1 e2 r1 r2 h1 h2
  match f with
  | 0 => simp [equivalentF] at h1
  | f+1 =>
    rw [equivalentF_succ] at h1 h2
    by_cases he : eqTerm e1 e2 = true
    · have hee : e1 = e2 := eqTerm_sound _ _ he
      subst hee
      rw [h1] at h2
      exact Option.some_inj.mp h2
    · have he' : eqTerm e2 e1 = false := by
        rcases Bool.eq_false_or_eq_true (eqTerm e2 e1) with h | h
        · exact absurd (eqTerm_sound _ _ h ▸ eqTerm_refl e2) he
        · exact h
      rw [he'] at h2
      rw [checkMergerOfRecursions_symm e2 e1, checkNegationRules_symm e2 e1,
        restRules_symm e2 e1] at h2
      simp only [Bool.false_eq_true, if_false,
        (by simpa using he : eqTerm e1 e2 = false)] at h1
      simp only [Bool.false_eq_true, if_false] at h2
      by_cases hm : checkMergerOfRecursions e1 e2 = true
      · rw [hm] at h1 h2
        simp only [if_true] at h1 h2
        rw [← Option.some_inj.mp h1, ← Option.some_inj.mp h2]
      · rw [(by simpa using hm : checkMergerOfRecursions e1 e2 = false)] at h1 h2
        simp only [Bool.false_eq_true, if_false] at h1 h2
        by_cases hn : checkNegationRules e1 e2 = true
        · rw [hn] at h1 h2
          simp only [if_true] at h1 h2
          rw [← Option.some_inj.mp h1, ← Option.some_inj.mp h2]
        · rw [(by simpa using hn : checkNegationRules e1 e2 = false)] at h1 h2
          simp only [Bool.false_eq_true, if_false] at h1 h2
          cases hA : plStepF f e1 e2 with
          | none => rw [hA] at h1; simp [seqOr] at h1
          | some a =>
            cases hB : plStepF f e2 e1 with
            | none => rw [hB] at h2; simp [seqOr] at h2
            | some b =>
              rw [hA, hB] at h1
              rw [hA, hB] at h2
              cases a <;> cases b <;> simp only [seqOr] at h1 h2 <;>
                rw [← Option.some_inj.mp h1, ← Option.some_inj.mp h2]

/-! ## Totality of the engine on positive power-loop spines -/

theorem positiveSpine_mkChain {b : Term} (n : Int)
    (hb : positiveSpine b = true) : positiveSpine (mkChain b n) = true := by
  unfold mkChain
  cases hk : n.toNat - 1 with
  | zero => exact hb
  | succ k => rfl

theorem wPL_mkChain_le (b : Term) (n : Int) :
    wPL (mkChain b n) ≤ wPL b := by
  unfold mkChain
  cases hk : n.toNat - 1 with
  | zero => exact Nat.le_refl _
  | succ k => exact Nat.zero_le _

/-- On terms whose power-loop spines carry only positive exponents, the
engine terminates: fuel exceeding the combined spine weight suffices.
This is the embedding-level form of "`equivalent` returns a boolean and
raises no exception" for such inputs. -/
theorem equivalentF_total :
    ∀ W e1 e2, wPL e1 + wPL e2 < W →
      positiveSpine e1 = true → positiveSpine e2 = true →
      ∃ r, equivalentF W e1 e2 = some r := by
  intro W
  induction W with
  | zero => intro e1 e2 h _ _; exact absurd h (Nat.not_lt_zero _)
  | succ W ih =>
    intro e1 e2 hlt hs1 hs2
    have hA : ∃ a, plStepF W e1 e2 = some a := by
      cases e1 with
      | PowerLoopExpression b n =>
        obtain ⟨hd, hb⟩ := Bool.and_eq_true_iff.mp hs1
        have hn : 1 ≤ n := of_decide_eq_true hd
        have hexp := expandPowerLoop_pos b n hn
        simp only [plStepF, hexp]
        apply ih
        · have hw := wPL_mkChain_le b n
          simp only [wPL] at hlt
          omega
        · exact positiveSpine_mkChain n hb
        · exact hs2
      | Symbol _ => exact ⟨false, rfl⟩
      | Connection _ _ => exact ⟨false, rfl⟩
      | AbitStart => exact ⟨false, rfl⟩
      | AbitEnd => exact ⟨false, rfl⟩
      | AbitConnect => exact ⟨false, rfl⟩
      | AbitDisconnect => exact ⟨false, rfl⟩
      | AssociativeRoot => exact ⟨false, rfl⟩
      | ConnectionForm _ => exact ⟨false, rfl⟩
      | NegationExpression _ => exact ⟨false, rfl⟩
      | ComplexClosure _ => exact ⟨false, rfl⟩
    have hB : ∃ b, plStepF W e2 e1 = some b := by
      cases e2 with
      | PowerLoopExpression b n =>
        obtain ⟨hd, hb⟩ := Bool.and_eq_true_iff.mp hs2
        have hn : 1 ≤ n := of_decide_eq_true hd
        have hexp := expandPowerLoop_pos b n hn
        simp only [plStepF, hexp]
        apply ih
        · have hw := wPL_mkChain_le b n
          simp only [wPL] at hlt
          omega
        · exact positiveSpine_mkChain n hb
        · exact hs1
      | Symbol _ => exact ⟨false, rfl⟩
      | Connection _ _ => exact ⟨false, rfl⟩
      | AbitStart => exact ⟨false, rfl⟩
      | AbitEnd => exact ⟨false, rfl⟩
      | AbitConnect => exact ⟨false, rfl⟩
      | AbitDisconnect => exact ⟨false, rfl⟩
      | AssociativeRoot => exact ⟨false, rfl⟩
      | ConnectionForm _ => exact ⟨false, rfl⟩
      | NegationExpression _ => exact ⟨false, rfl⟩
      | ComplexClosure _ => exact ⟨false, rfl⟩
    obtain ⟨a, hA⟩ := hA
    obtain ⟨b, hB⟩ := hB
    rw [equivalentF_succ]
    by_cases he : eqTerm e1 e2 = true
    · exact ⟨true, by simp [he]⟩
    · by_cases hm : checkMergerOfRecursions e1 e2 = true
      · exact ⟨true, by simp [he, hm]⟩
      · by_cases hn : checkNegationRules e1 e2 = true
        · exact ⟨true, by simp [he, hm, hn]⟩
        · cases a with
          | true => exact ⟨true, by simp [he, hm, hn, hA, seqOr]⟩
          | false =>
            cases b with
            | true => exact ⟨true, by simp [he, hm, hn, hA, hB, seqOr]⟩
            | false =>
              exact ⟨restRules e1 e2, by simp [he, hm, hn, hA, hB, seqOr]⟩

/-! ## Helper lemmas for establishing `some true` results symbolically -/

theorem equivalentF_true_of_negation (f : Nat) {e1 e2 : Term}
    (h : checkNegationRules e1 e2 = true) :
    equivalentF (f+1) e1 e2 = some true := by
  rw [equivalentF_succ]
  by_cases he : eqTerm e1 e2 = true <;>
    by_cases hm : checkMergerOfRecursions e1 e2 = true <;>
      simp [he, hm, h]

theorem equivalentF_true_of_rest (f : Nat) {e1 e2 : Term}
    (hA : ∃ a, plStepF f e1 e2 = some a) (hB : ∃ b, plStepF f e2 e1 = some b)
    (h : restRules e1 e2 = true) :
    equivalentF (f+1) e1 e2 = some true := by
  obtain ⟨a, hA⟩ := hA
  obtain ⟨b, hB⟩ := hB
  rw [equivalentF_succ]
  by_cases he : eqTerm e1 e2 = true
  · simp [he]
  · by_cases hm : checkMergerOfRecursions e1 e2 = true
    · simp [he, hm]
    · by_cases hn : checkNegationRules e1 e2 = true
      · simp [he, hm, hn]
      · cases a with
        | true => simp [he, hm, hn, hA, seqOr]
        | false =>
          cases b with
          | true => simp [he, hm, hn, hA, hB, seqOr]
          | false => simp [he, hm, hn, hA, hB, seqOr, h]

/-! ## The infinity-chain predicates -/

/-- Shape analysis of the spec's infinity-chain predicate. -/
theorem specInfinityChain_cases {t : Term} (h : specInfinityChain t = true) :
    t = .AssociativeRoot ∨
      ∃ r, t = .Connection r .AssociativeRoot ∧ specInfinityChain r = true := by
  cases t with
  | AssociativeRoot => exact Or.inl rfl
  | Connection r v =>
    cases v with
    | AssociativeRoot =>
      exact Or.inr ⟨r, rfl, by simpa [specInfinityChain] using h⟩
    | Symbol _ => simp [specInfinityChain] at h
    | Connection _ _ => simp [specInfinityChain] at h
    | AbitStart => simp [specInfinityChain] at h
    | AbitEnd => simp [specInfinityChain] at h
    | AbitConnect => simp [specInfinityChain] at h
    | AbitDisconnect => simp [specInfinityChain] at h
    | ConnectionForm _ => simp [specInfinityChain] at h
    | NegationExpression _ => simp [specInfinityChain] at h
    | PowerLoopExpression _ _ => simp [specInfinityChain] at h
    | ComplexClosure _ => simp [specInfinityChain] at h
  | Symbol _ => simp [specInfinityChain] at h
  | AbitStart => simp [specInfinityChain] at h
  | AbitEnd => simp [specInfinityChain] at h
  | AbitConnect => simp [specInfinityChain] at h
  | AbitDisconnect => simp [specInfinityChain] at h
  | ConnectionForm _ => simp [specInfinityChain] at h
  | NegationExpression _ => simp [specInfinityChain] at h
  | PowerLoopExpression _ _ => simp [specInfinityChain] at h
  | ComplexClosure _ => simp [specInfinityChain] at h

/-- On `Connection`s, the source's `_is_infinity_chain` agrees with the
spec's predicate (the two differ only on the bare `AssociativeRoot`, where
the source function returns `False` and the engine handles the case by the
structural-equality fast path or the `∞`-versus-chain case instead). -/
theorem isInfinityChain_of_specConn :
    (r : Term) → specInfinityChain (.Connection r .AssociativeRoot) = true →
      isInfinityChain (.Connection r .AssociativeRoot) = true
  | .AssociativeRoot, _ => by simp [isInfinityChain, isRoot]
  | .Connection r' v', h => by
    have h' : specInfinityChain (.Connection r' v') = true := by
      simpa [specInfinityChain] using h
    rcases specInfinityChain_cases h' with h0 | ⟨rr, heq, hspec⟩
    · exact absurd h0 (by simp)
    · obtain ⟨he1, he2⟩ : r' = rr ∧ v' = .AssociativeRoot := by
        injection heq with a b
        exact ⟨a, b⟩
      subst he2
      have hrec := isInfinityChain_of_specConn r' h'
      rw [isInfinityChain]
      simp [isRoot, isConn, hrec]
  | .Symbol _, h => by simp [specInfinityChain] at h
  | .AbitStart, h => by simp [specInfinityChain] at h
  | .AbitEnd, h => by simp [specInfinityChain] at h
  | .AbitConnect, h => by simp [specInfinityChain] at h
  | .AbitDisconnect, h => by simp [specInfinityChain] at h
  | .ConnectionForm _, h => by simp [specInfinityChain] at h
  | .NegationExpression _, h => by simp [specInfinityChain] at h
  | .PowerLoopExpression _ _, h => by simp [specInfinityChain] at h
  | .ComplexClosure _, h => by simp [specInfinityChain] at h

/-- Two spec-infinity-chains are judged equivalent by the engine at fuel
1: either a structural-equality fast path (`∞` against `∞`) or the
`_check_extended_self_closure` rule fires. -/
theorem equivalentF_of_specChains {t1 t2 : Term}
    (h1 : specInfinityChain t1 = true) (h2 : specInfinityChain t2 = true) :
    equivalentF 1 t1 t2 = some true := by
  rcases specInfinityChain_cases h1 with rfl | ⟨r1, rfl, hs1⟩
  · rcases specInfinityChain_cases h2 with rfl | ⟨r2, rfl, hs2⟩
    · rfl
    · have hc := isInfinityChain_of_specConn r2
        (by simpa [specInfinityChain] using hs2)
      apply equivalentF_true_of_rest 0
      · exact ⟨false, rfl⟩
      · exact ⟨false, rfl⟩
      · have hext : checkExtendedSelfClosure .AssociativeRoot
            (.Connection r2 .AssociativeRoot) = true := by
          simp [checkExtendedSelfClosure, extChainPat, isRoot, isConn, hc]
        unfold restRules
        simp [hext]
  · rcases specInfinityChain_cases h2 with rfl | ⟨r2, rfl, hs2⟩
    · have hc := isInfinityChain_of_specConn r1
        (by simpa [specInfinityChain] using hs1)
      apply equivalentF_true_of_rest 0
      · exact ⟨false, rfl⟩
      · exact ⟨false, rfl⟩
      · have hext : checkExtendedSelfClosure (.Connection r1 .AssociativeRoot)
            .AssociativeRoot = true := by
          simp [checkExtendedSelfClosure, extChainPat, isRoot, isConn, hc]
        unfold restRules
        simp [hext]
    · have hc1 := isInfinityChain_of_specConn r1
        (by simpa [specInfinityChain] using hs1)
      have hc2 := isInfinityChain_of_specConn r2
        (by simpa [specInfinityChain] using hs2)
      apply equivalentF_true_of_rest 0
      · exact ⟨false, rfl⟩
      · exact ⟨false, rfl⟩
      · have hext : checkExtendedSelfClosure (.Connection r1 .AssociativeRoot)
            (.Connection r2 .AssociativeRoot) = true := by
          simp [checkExtendedSelfClosure, extChainPat, extBothPat, isRoot,
            isConn, hc1, hc2]
        unfold restRules
        simp [hext]

/-- The left-associative chain of `k+1` roots is a spec-infinity-chain. -/
theorem specInfinityChain_connectionChain :
    ∀ k, specInfinityChain (connectionChain .AssociativeRoot k) = true := by
  intro k
  induction k with
  | zero => rfl
  | succ k ih => simpa [connectionChain, specInfinityChain] using ih

/-! ## The sequence loop on runs of symbol tokens -/

theorem parseSequenceLoop_symbols :
    ∀ (names : List String) (fuel : Nat) (acc : Term),
      names.length + 3 ≤ fuel →
      parseSequenceLoop fuel acc
          (names.map (fun s => (⟨.SYMBOL, s⟩ : Tok)) ++ [⟨.EOF, ""⟩]) =
        .ok (names.foldl (fun a s => .Connection a (.Symbol s)) acc,
          [(⟨.EOF, ""⟩ : Tok)]) := by
  intro names
  induction names with
  | nil =>
    intro fuel acc hf
    obtain ⟨f, rfl⟩ : ∃ f, fuel = f + 1 := ⟨fuel - 1, by omega⟩
    rfl
  | cons n ns ih =>
    intro fuel acc hf
    obtain ⟨f, rfl⟩ : ∃ f, fuel = f + 3 := ⟨fuel - 3, by omega⟩
    simp only [List.map_cons, List.cons_append, List.length_cons] at hf ⊢
    have hp : parsePowerLoop (f+2)
        ((⟨.SYMBOL, n⟩ : Tok) ::
          (ns.map (fun s => (⟨.SYMBOL, s⟩ : Tok)) ++ [⟨.EOF, ""⟩])) =
        .ok (.Symbol n,
          ns.map (fun s => (⟨.SYMBOL, s⟩ : Tok)) ++ [⟨.EOF, ""⟩]) := by
      cases ns <;> rfl
    rw [parseSequenceLoop]
    simp only [seqContinueTok, bind, Except.bind, hp, seqAbitStartFix,
      reduceIte, List.foldl_cons]
    exact ih (f+2) (.Connection acc (.Symbol n)) (by omega)

theorem parseSequence_symbols (n0 : String) (names : List String)
    (fuel : Nat) (hf : names.length + 5 ≤ fuel) :
    parseSequence fuel
        ((⟨.SYMBOL, n0⟩ : Tok) ::
          (names.map (fun s => (⟨.SYMBOL, s⟩ : Tok)) ++ [⟨.EOF, ""⟩])) =
      .ok (names.foldl (fun a s => .Connection a (.Symbol s)) (.Symbol n0),
        [(⟨.EOF, ""⟩ : Tok)]) := by
  obtain ⟨f, rfl⟩ : ∃ f, fuel = f + 3 := ⟨fuel - 3, by omega⟩
  have hp : parsePowerLoop (f+2)
      ((⟨.SYMBOL, n0⟩ : Tok) ::
        (names.map (fun s => (⟨.SYMBOL, s⟩ : Tok)) ++ [⟨.EOF, ""⟩])) =
      .ok (.Symbol n0,
        names.map (fun s => (⟨.SYMBOL, s⟩ : Tok)) ++ [⟨.EOF, ""⟩]) := by
    cases names <;> rfl
  rw [parseSequence]
  simp only [bind, Except.bind, hp, seqAbitStartFix]
  exact parseSequenceLoop_symbols names (f+2) (.Symbol n0) (by omega)

/-! ## The claims -/

/-- C1: the merger-of-recursions fold fires exactly on the two-part run:
`equivalent(ComplexClosure([ConnectionForm('REF'), ConnectionForm('VAL')]),
AssociativeRoot)` is true, and for the three-part run
`[ConnectionForm('REF'), AssociativeRoot, ConnectionForm('VAL')]` it is
false — the fold does not fire on the length-3 run. -/
theorem claim_C1_merger_guard :
    pyEquivalent
      (.ComplexClosure [.ConnectionForm .REF, .ConnectionForm .VAL])
      .AssociativeRoot true ∧
    pyEquivalent
      (.ComplexClosure [.ConnectionForm .REF, .AssociativeRoot,
        .ConnectionForm .VAL])
      .AssociativeRoot false :=
  ⟨⟨1, rfl⟩, ⟨1, rfl⟩⟩

/-- C2: terms satisfying the spec's infinity-chain predicate (it is
`AssociativeRoot`, or a `Connection` whose value is `AssociativeRoot` and
whose reference is itself an infinity chain, `specInfinityChain`) are
judged equivalent by the engine; in particular, for n ∈ {1,2,3,4},
`equivalent(AssociativeRoot, left-associative chain of n+1 roots)` is
true, and `equivalent(AssociativeRoot, Symbol("x"))` is false. -/
theorem claim_C2_infinity_chain :
    (∀ t1 t2, specInfinityChain t1 = true → specInfinityChain t2 = true →
      pyEquivalent t1 t2 true) ∧
    (∀ n : Nat, 1 ≤ n → n ≤ 4 →
      pyEquivalent .AssociativeRoot
        (connectionChain .AssociativeRoot n) true) ∧
    pyEquivalent .AssociativeRoot (.Symbol "x") false :=
  ⟨fun _ _ h1 h2 => ⟨1, equivalentF_of_specChains h1 h2⟩,
   fun n _ _ =>
     ⟨1, equivalentF_of_specChains rfl (specInfinityChain_connectionChain n)⟩,
   ⟨1, rfl⟩⟩

theorem claim_C2_infinity_chain_witness :
    specInfinityChain (.Connection .AssociativeRoot .AssociativeRoot) = true ∧
    pyEquivalent (.Connection .AssociativeRoot .AssociativeRoot)
      (.Connection (.Connection .AssociativeRoot .AssociativeRoot)
        .AssociativeRoot) true ∧
    pyEquivalent .AssociativeRoot
      (connectionChain .AssociativeRoot 2) true :=
  ⟨rfl, claim_C2_infinity_chain.1 _ _ rfl rfl,
   claim_C2_infinity_chain.2.1 2 (by decide) (by decide)⟩

/-- C3 counterexample: `equivalent` does not always return a boolean —
called on `PowerLoopExpression(Symbol("a"), 0)` and `Symbol("b")` it never
returns (the expansion of exponent 0 recurses forever, a Python
`RecursionError`). -/
theorem claim_C3_counterexample :
    pyEquivalentDiverges (.PowerLoopExpression (.Symbol "a") 0)
      (.Symbol "b") := by
  intro fuel
  cases fuel with
  | zero => rfl
  | succ f => rfl

/-- C3 amended: for every pair of terms whose power-loop spines carry only
positive exponents, `equivalent` returns a boolean (no exception); when no
axiom matches, the result is the `false` branch, never an error path — in
general any two `Symbol`s with distinct names (which no axiom relates)
prove false, and in particular `equivalent(Symbol("p"), Symbol("q"))` is
false, returned without error.  (With an exponent `≤ 0` on a spine the
call can instead recurse without bound, see the counterexample.) -/
theorem claim_C3_total_on_positive_spines :
    (∀ t1 t2, positiveSpine t1 = true → positiveSpine t2 = true →
      ∃ r, pyEquivalent t1 t2 r) ∧
    (∀ s t : String, s ≠ t →
      pyEquivalent (.Symbol s) (.Symbol t) false) ∧
    pyEquivalent (.Symbol "p") (.Symbol "q") false := by
  refine ⟨?_, ?_, ⟨1, rfl⟩⟩
  · intro t1 t2 h1 h2
    obtain ⟨r, hr⟩ :=
      equivalentF_total (wPL t1 + wPL t2 + 1) t1 t2 (by omega) h1 h2
    exact ⟨r, wPL t1 + wPL t2 + 1, hr⟩
  · intro s t hst
    refine ⟨1, ?_⟩
    have he : eqTerm (.Symbol s) (.Symbol t) = false := by
      simp only [eqTerm]
      exact beq_eq_false_iff_ne.mpr hst
    have hM : checkMergerOfRecursions (.Symbol s) (.Symbol t) = false := rfl
    have hN : checkNegationRules (.Symbol s) (.Symbol t) = false := rfl
    have hR : restRules (.Symbol s) (.Symbol t) = false := rfl
    have hP : plStepF 0 (.Symbol s) (.Symbol t) = some false := rfl
    have hQ : plStepF 0 (.Symbol t) (.Symbol s) = some false := rfl
    rw [show (1 : Nat) = 0 + 1 from rfl, equivalentF_succ]
    simp [he, hM, hN, hR, hP, hQ, seqOr]

theorem claim_C3_total_on_positive_spines_witness :
    positiveSpine (.PowerLoopExpression (.Symbol "a") 2) = true ∧
    positiveSpine .AssociativeRoot = true ∧
    (∃ r, pyEquivalent (.PowerLoopExpression (.Symbol "a") 2)
      .AssociativeRoot r) ∧
    pyEquivalent (.Symbol "u") (.Symbol "v") false :=
  ⟨rfl, rfl, claim_C3_total_on_positive_spines.1 _ _ rfl rfl,
   claim_C3_total_on_positive_spines.2.1 "u" "v" (by decide)⟩

/-- C4 counterexample: parsing `"abc"` does not yield
`Connection(Connection(Symbol("a"), Symbol("b")), Symbol("c"))` — the
lexer reads a maximal alphanumeric run as one `SYMBOL` token, so the
result is the single `Symbol("abc")`. -/
theorem claim_C4_counterexample :
    parseText "abc" = .ok (.EXPRESSION (.Symbol "abc")) ∧
    parseText "abc" ≠
      .ok (.EXPRESSION (.Connection (.Connection (.Symbol "a") (.Symbol "b"))
        (.Symbol "c"))) := by
  refine ⟨rfl, fun h => ?_⟩
  rw [show parseText "abc" = .ok (.EXPRESSION (.Symbol "abc")) from rfl] at h
  simp at h

/-- C4 amended: `"abc"` parses to the single `Symbol("abc")`; adjacent
primaries that are separate tokens do parse to a strictly left-associative
`Connection`: `"a b c"` yields
`Connection(Connection(Symbol("a"), Symbol("b")), Symbol("c"))`, and in
general `parse_sequence` on any run of symbol tokens returns the left
fold `List.foldl Connection` — never a right-nested `Connection`. -/
theorem claim_C4_left_associativity :
    parseText "abc" = .ok (.EXPRESSION (.Symbol "abc")) ∧
    parseText "a b c" =
      .ok (.EXPRESSION (.Connection (.Connection (.Symbol "a") (.Symbol "b"))
        (.Symbol "c"))) ∧
    (∀ (n0 : String) (names : List String) (fuel : Nat),
      names.length + 5 ≤ fuel →
      parseSequence fuel
          ((⟨.SYMBOL, n0⟩ : Tok) ::
            (names.map (fun s => (⟨.SYMBOL, s⟩ : Tok)) ++ [⟨.EOF, ""⟩])) =
        .ok (names.foldl (fun a s => .Connection a (.Symbol s)) (.Symbol n0),
          [(⟨.EOF, ""⟩ : Tok)])) :=
  ⟨rfl, rfl, parseSequence_symbols⟩

theorem claim_C4_left_associativity_witness :
    ["b", "c"].length + 5 ≤ 10 ∧
    parseSequence 10
        ((⟨.SYMBOL, "a"⟩ : Tok) ::
          (["b", "c"].map (fun s => (⟨.SYMBOL, s⟩ : Tok)) ++ [⟨.EOF, ""⟩])) =
      .ok (.Connection (.Connection (.Symbol "a") (.Symbol "b"))
        (.Symbol "c"), [(⟨.EOF, ""⟩ : Tok)]) :=
  ⟨by decide, claim_C4_left_associativity.2.2 "a" ["b", "c"] 10 (by decide)⟩

/-- C5 counterexample: proving `-ab ≡ ba`, `-aa ≡ aa` and `-∞ ≡ ∞` each
returns `False`, not `True`: `_check_negation_rules` only matches
`NegationExpression`s of `ComplexClosure`s, and none of these negations
wraps a `ComplexClosure`. -/
theorem claim_C5_counterexample :
    parseAndProveF 10 "-ab ≡ ba" = some false ∧
    parseAndProveF 10 "-aa ≡ aa" = some false ∧
    parseAndProveF 10 "-∞ ≡ ∞" = some false :=
  ⟨rfl, rfl, rfl⟩

/-- C5 amended: the closure dualities `-♂x ≡ x♀` and `-x♀ ≡ ♂x` hold
under the prover for every symbol `x`, but `-ab ≡ ba`, `-aa ≡ aa` and
`-∞ ≡ ∞` are each judged false (negation elimination is implemented only
for complex-closure operands). -/
theorem claim_C5_negation_laws :
    (∀ x : String,
      pyEquivalent
        (.NegationExpression
          (.ComplexClosure [.ConnectionForm .REF, .Symbol x]))
        (.ComplexClosure [.Symbol x, .ConnectionForm .VAL]) true) ∧
    (∀ x : String,
      pyEquivalent
        (.NegationExpression
          (.ComplexClosure [.Symbol x, .ConnectionForm .VAL]))
        (.ComplexClosure [.ConnectionForm .REF, .Symbol x]) true) ∧
    pyEquivalent (.NegationExpression (.Symbol "ab")) (.Symbol "ba") false ∧
    pyEquivalent (.NegationExpression (.Symbol "aa")) (.Symbol "aa") false ∧
    pyEquivalent (.NegationExpression .AssociativeRoot)
      .AssociativeRoot false := by
  refine ⟨fun x => ⟨1, ?_⟩, fun x => ⟨1, ?_⟩, ⟨1, rfl⟩, ⟨1, rfl⟩, ⟨1, rfl⟩⟩
  · apply equivalentF_true_of_negation
    simp [checkNegationRules, negPatRefGeneral, negPatValGeneral,
      negPatRefRoot, negPatRefRef, negPatRefVal, headIsForm, lastIsForm,
      isFormOf, eqTermList, eqTerm]
  · apply equivalentF_true_of_negation
    simp [checkNegationRules, negPatRefGeneral, negPatValGeneral,
      negPatRefRoot, negPatRefRef, negPatRefVal, headIsForm, lastIsForm,
      isFormOf, eqTermList, eqTerm]

theorem claim_C5_negation_laws_witness :
    pyEquivalent
      (.NegationExpression
        (.ComplexClosure [.ConnectionForm .REF, .Symbol "x"]))
      (.ComplexClosure [.Symbol "x", .ConnectionForm .VAL]) true :=
  claim_C5_negation_laws.1 "x"

/-- C6 counterexample: `a^0` is not rejected at all — it parses
successfully to `PowerLoopExpression(Symbol("a"), 0)` (the exponent token
`"0"` passes the `isdigit()` test), so no `InvalidExponent` error (which
does not exist in the code) is raised. -/
theorem claim_C6_counterexample :
    parseText "a^0" =
      .ok (.EXPRESSION (.PowerLoopExpression (.Symbol "a") 0)) := rfl

/-- C6 amended: `a^(-1)` fails at parse time with the generic parse error
`"Expected numeric exponent after ^ operator"` (there is no
`InvalidExponent` error anywhere in the code); `a^0` is accepted by the
parser as `PowerLoopExpression(Symbol("a"), 0)`; and proving it
equivalent to anything then makes the engine recurse without bound. -/
theorem claim_C6_exponent_handling :
    parseText "a^(-1)" = .error "Expected numeric exponent after ^ operator" ∧
    parseText "a^0" =
      .ok (.EXPRESSION (.PowerLoopExpression (.Symbol "a") 0)) ∧
    pyEquivalentDiverges (.PowerLoopExpression (.Symbol "a") 0)
      (.Symbol "a") :=
  ⟨rfl, rfl, fun fuel => by cases fuel <;> rfl⟩

/-- C7: for every term `a` and every positive integer exponent `n`,
`equivalent(PowerLoopExpression(a, n), mkChain a n)` is true, where
`mkChain a n` is the left-associative self-connection of `a` repeated `n`
times (`a^1 ≡ a`, `a^2 ≡ Connection(a,a)`,
`a^3 ≡ Connection(Connection(a,a),a)`, …). -/
theorem claim_C7_power_expansion (a : Term) (n : Int) (h : 1 ≤ n) :
    pyEquivalent (.PowerLoopExpression a n) (mkChain a n) true := by
  refine ⟨2, ?_⟩
  by_cases he : eqTerm (.PowerLoopExpression a n) (mkChain a n) = true
  · rw [equivalentF_succ]
    simp [he]
  · have hexp := expandPowerLoop_pos a n h
    have hstep : plStepF 1 (.PowerLoopExpression a n) (mkChain a n) =
        some true := by
      simp only [plStepF, hexp]
      rw [show (1 : Nat) = 0 + 1 from rfl, equivalentF_succ]
      simp [eqTerm_refl]
    rw [equivalentF_succ]
    by_cases hm : checkMergerOfRecursions (.PowerLoopExpression a n)
        (mkChain a n) = true
    · simp [he, hm]
    · by_cases hn : checkNegationRules (.PowerLoopExpression a n)
          (mkChain a n) = true
      · simp [he, hm, hn]
      · simp [he, hm, hn, hstep, seqOr]

theorem claim_C7_power_expansion_witness :
    pyEquivalent (.PowerLoopExpression (.Symbol "a") 2)
      (mkChain (.Symbol "a") 2) true ∧
    mkChain (.Symbol "a") 2 = .Connection (.Symbol "a") (.Symbol "a") :=
  ⟨claim_C7_power_expansion (.Symbol "a") 2 (by decide), rfl⟩

/-- C8 counterexample: parsing `"(a"`, a non-empty parenthesized group
with no matching closing parenthesis, does not fail — it succeeds and
returns `Expression(Symbol("a"))`: the group branch of `parse_primary`
eats a closing `ABIT_END` only `if` one is present, with no `else`
error. -/
theorem claim_C8_counterexample :
    parseText "(a" = .ok (.EXPRESSION (.Symbol "a")) := rfl

/-- C8 amended: a missing closing parenthesis is silently tolerated:
`"(a"` parses successfully to `Symbol("a")` (exactly what the matched
`"(a)"` parses to), and `"(a b"` to `Connection(Symbol("a"),
Symbol("b"))`; no `ParseError` is raised. -/
theorem claim_C8_unmatched_paren :
    parseText "(a" = .ok (.EXPRESSION (.Symbol "a")) ∧
    parseText "(a)" = .ok (.EXPRESSION (.Symbol "a")) ∧
    parseText "(a b" =
      .ok (.EXPRESSION (.Connection (.Symbol "a") (.Symbol "b"))) :=
  ⟨rfl, rfl, rfl⟩

/-- C9 counterexample: `equivalent` is not symmetric as a total function:
with `a = PowerLoopExpression(Symbol("a"), 0)` and
`b = PowerLoopExpression(a, 1)`, `equivalent(b, a)` returns `True` while
`equivalent(a, b)` never returns (it hits the divergent exponent-0
expansion first). -/
theorem claim_C9_counterexample :
    pyEquivalentDiverges (.PowerLoopExpression (.Symbol "a") 0)
      (.PowerLoopExpression (.PowerLoopExpression (.Symbol "a") 0) 1) ∧
    equivalentF 3
      (.PowerLoopExpression (.PowerLoopExpression (.Symbol "a") 0) 1)
      (.PowerLoopExpression (.Symbol "a") 0) = some true :=
  ⟨fun fuel => by cases fuel <;> rfl, rfl⟩

/-- C9 amended: whenever both `equivalent(a,b)` and `equivalent(b,a)`
return a boolean, the booleans agree (the rule set is argument-order
symmetric); symmetry can only fail by one side diverging on a
non-positive power-loop exponent, as in the counterexample. -/
theorem claim_C9_symmetry (t1 t2 : Term) (r1 r2 : Bool)
    (h1 : pyEquivalent t1 t2 r1) (h2 : pyEquivalent t2 t1 r2) : r1 = r2 := by
  obtain ⟨f1, hf1⟩ := h1
  obtain ⟨f2, hf2⟩ := h2
  exact equivalentF_symm_some (equivalentF_mono (Nat.le_max_left f1 f2) hf1)
    (equivalentF_mono (Nat.le_max_right f1 f2) hf2)

theorem claim_C9_symmetry_witness :
    pyEquivalent (.Symbol "p") (.Symbol "q") false ∧
    pyEquivalent (.Symbol "q") (.Symbol "p") false ∧
    (false : Bool) = false :=
  ⟨⟨1, rfl⟩, ⟨1, rfl⟩,
   claim_C9_symmetry (.Symbol "p") (.Symbol "q") false false ⟨1, rfl⟩ ⟨1, rfl⟩⟩

/-- C10: `_check_meta_self_closure` makes any two-part `ComplexClosure`
equivalent to any `Connection` whose value is `AssociativeRoot`, whatever
the parts and the reference; in particular
`equivalent(ComplexClosure([Symbol("x"), ConnectionForm('VAL')]),
Connection(Symbol("y"), AssociativeRoot))` is true even though the terms
are unrelated. -/
theorem claim_C10_meta_self_closure :
    (∀ p1 p2 r : Term,
      pyEquivalent (.ComplexClosure [p1, p2])
        (.Connection r .AssociativeRoot) true) ∧
    pyEquivalent (.ComplexClosure [.Symbol "x", .ConnectionForm .VAL])
      (.Connection (.Symbol "y") .AssociativeRoot) true := by
  have key : ∀ p1 p2 r : Term,
      equivalentF 1 (.ComplexClosure [p1, p2])
        (.Connection r .AssociativeRoot) = some true := by
    intro p1 p2 r
    apply equivalentF_true_of_rest 0
    · exact ⟨false, rfl⟩
    · exact ⟨false, rfl⟩
    · have hmeta : checkMetaSelfClosure (.ComplexClosure [p1, p2])
          (.Connection r .AssociativeRoot) = true := rfl
      unfold restRules
      simp [hmeta]
  exact ⟨fun p1 p2 r => ⟨1, key p1 p2 r⟩, ⟨1, key _ _ _⟩⟩

theorem claim_C10_meta_self_closure_witness :
    pyEquivalent (.ComplexClosure [.AbitStart, .AbitEnd])
      (.Connection .AbitConnect .AssociativeRoot) true :=
  claim_C10_meta_self_closure.1 .AbitStart .AbitEnd .AbitConnect

end Mtc
